import Mathlib

/-!
Verification of the Job Orchestration & Progress Distribution subsystem of
the ffmpeg_tools server (`server.js`).

The JavaScript source is shallowly embedded: the in-memory `activeJobs` Map
becomes an insertion-ordered association list, the HTTP route handlers become
pure functions from request fields and server state to a response and a new
state, the fluent-ffmpeg event handlers (`progress` / `end` / `error`) become
a step function on the job map that also reports the broadcasts it issues,
the WebSocket layer (`wss.on('connection')`, `broadcastProgress`) becomes a
step function on a connection registry, and the daily cleanup cron becomes a
function on directory listings.  Timestamps are integers (milliseconds);
engine-reported percentages are rationals; JavaScript `Math.round` is
embedded as floor (x + 1/2).
-/

/-- JS `Math.round`: round half toward positive infinity, i.e.
floor (q + 1/2).  Written on the numerator and denominator with integer
(Euclidean) division so that it evaluates by kernel reduction;
`jsRound_eq_floor` below proves it equal to the floor form. -/
def jsRound (q : ℚ) : ℤ := (2 * q.num + q.den) / (2 * (q.den : ℤ))

/-- `progress.percent || 0` : a missing (undefined/NaN) percent is 0. -/
def percentOrZero : Option ℚ → ℚ
  | none => 0
  | some q => q

/-- One entry of a JS `Map` keyed by strings; the map is an insertion-ordered
association list, matching `Map` iteration order. -/
def mapGet {α : Type} : List (String × α) → String → Option α
  | [], _ => none
  | (k, v) :: rest, key => if k = key then some v else mapGet rest key

/-- JS `Map.prototype.set`: replace in place when the key exists (keys are
unique, so the first hit is the only one), else append at the end. -/
def mapSet {α : Type} : List (String × α) → String → α → List (String × α)
  | [], key, v => [(key, v)]
  | (k, w) :: rest, key, v =>
    if k = key then (key, v) :: rest else (k, w) :: mapSet rest key v

/-- A file on disk, as the cleanup cron sees it: its name, its creation
timestamp (`stats.birthtime`, epoch milliseconds), and whether `fs.unlink`
on it would reject (e.g. a permission error). -/
structure FsFile where
  name : String
  birthtime : ℤ
  unlinkFails : Bool
deriving DecidableEq, Repr

/-- `fs.access(path.join(dir, name))` succeeds iff the directory listing
contains the name. -/
def fileExists (files : List FsFile) (name : String) : Bool :=
  files.any (fun f => f.name = name)

/-- A job record as stored in `activeJobs`.  The route handlers build it with
`status = 'processing'`, `progress = 0`; `inputFile` is used by convert, trim
and filter jobs, `inputFiles` by merge jobs, `filterType` by filter jobs. -/
structure Job where
  id : String
  status : String
  inputFile : Option String
  inputFiles : List String
  outputFile : String
  filterType : Option String
  startTime : ℤ
  endTime : Option ℤ
  progress : ℤ
  error : Option String
deriving DecidableEq, Repr

/-- Server state touched by the subsystem: the `activeJobs` map and the
listings of the `uploads/` and `outputs/` directories. -/
structure ServerState where
  activeJobs : List (String × Job)
  uploads : List FsFile
  outputs : List FsFile
deriving DecidableEq, Repr

/-- Responses of the job-submission and job-query routes. -/
inductive ApiResponse where
  /-- `res.json(\x7b jobId, message \x7d)` — HTTP 200. -/
  | okJob (jobId : String) (message : String)
  /-- `res.status(400).json(...)` — InvalidArgument. -/
  | badRequest (error : String)
  /-- `res.status(404).json(...)` — NotFound. -/
  | notFound (error : String)
  /-- `res.json(job)` for `GET /api/job/:jobId`. -/
  | okJobRecord (job : Job)
  /-- `res.json(jobs)` for `GET /api/jobs`. -/
  | okJobList (jobs : List Job)
deriving DecidableEq, Repr

/-- `path.parse(s).name`: drop the extension (the part from the last dot,
when that dot is not the leading character). -/
def lastIdxOf (c : Char) : List Char → Option Nat
  | [] => none
  | a :: rest =>
    match lastIdxOf c rest with
    | some i => some (i + 1)
    | none => if a = c then some 0 else none

def stripExt (s : String) : String :=
  match lastIdxOf '.' s.toList with
  | some i => if 0 < i then String.mk (s.toList.take i) else s
  | none => s

/-- `POST /api/convert`.  Arguments: the state, the generated uuid, the
current time, and the request-body fields (`none` = absent; the empty string
is falsy in JS, so it also fails the `!inputFile || !outputFormat` guard).
The input-existence check runs before the job record is inserted. -/
def apiConvert (st : ServerState) (jobId : String) (now : ℤ)
    (inputFile outputFormat : Option String) : ApiResponse × ServerState :=
  match inputFile, outputFormat with
  | some inF, some fmt =>
    if inF = "" ∨ fmt = "" then
      (.badRequest "inputFile and outputFormat are required", st)
    else if fileExists st.uploads inF then
      let outputFilename := stripExt inF ++ "-" ++ jobId ++ "." ++ fmt
      let job : Job :=
        { id := jobId, status := "processing", inputFile := some inF,
          inputFiles := [], outputFile := outputFilename, filterType := none,
          startTime := now, endTime := none, progress := 0, error := none }
      (.okJob jobId "Conversion started",
        { st with activeJobs := mapSet st.activeJobs jobId job })
    else
      (.notFound "Input file not found", st)
  | _, _ => (.badRequest "inputFile and outputFormat are required", st)

/-- `POST /api/trim`.  Note: the source performs no `fs.access` check on the
input file; the job record is created unconditionally once the three fields
pass the truthiness guard. -/
def apiTrim (st : ServerState) (jobId : String) (now : ℤ)
    (inputFile startTime duration : Option String) : ApiResponse × ServerState :=
  match inputFile, startTime, duration with
  | some inF, some stt, some dur =>
    if inF = "" ∨ stt = "" ∨ dur = "" then
      (.badRequest "inputFile, startTime, and duration are required", st)
    else
      let outputFilename := "trimmed-" ++ jobId ++ "-" ++ inF
      let job : Job :=
        { id := jobId, status := "processing", inputFile := some inF,
          inputFiles := [], outputFile := outputFilename, filterType := none,
          startTime := now, endTime := none, progress := 0, error := none }
      (.okJob jobId "Trimming started",
        { st with activeJobs := mapSet st.activeJobs jobId job })
  | _, _, _ => (.badRequest "inputFile, startTime, and duration are required", st)

/-- `POST /api/merge`.  `inputFiles` is `none` when absent or not an array.
No `fs.access` check is performed on any of the inputs. -/
def apiMerge (st : ServerState) (jobId : String) (now : ℤ)
    (inputFiles : Option (List String)) : ApiResponse × ServerState :=
  match inputFiles with
  | some files =>
    if files.length < 2 then
      (.badRequest "At least 2 input files are required", st)
    else
      let outputFilename := "merged-" ++ jobId ++ ".mp4"
      let job : Job :=
        { id := jobId, status := "processing", inputFile := none,
          inputFiles := files, outputFile := outputFilename, filterType := none,
          startTime := now, endTime := none, progress := 0, error := none }
      (.okJob jobId "Merging started",
        { st with activeJobs := mapSet st.activeJobs jobId job })
  | none => (.badRequest "At least 2 input files are required", st)

/-- The filter types handled by the `switch` in `POST /api/filter`; any other
value falls through to `default`, which returns 400. -/
def supportedFilters : List String :=
  ["watermark", "blur", "brightness", "contrast", "saturation", "speed",
   "stabilize", "noise_reduction"]

/-- `POST /api/filter`.  The input-existence check runs before job creation,
but the filter-type `switch` runs after `activeJobs.set(jobId, job)`: an
unsupported filter type returns 400 with the job record already inserted. -/
def apiFilter (st : ServerState) (jobId : String) (now : ℤ)
    (inputFile filterType : Option String) : ApiResponse × ServerState :=
  match inputFile, filterType with
  | some inF, some ft =>
    if inF = "" ∨ ft = "" then
      (.badRequest "inputFile and filterType are required", st)
    else if fileExists st.uploads inF then
      let outputFilename := "filtered_" ++ ft ++ "_" ++ jobId ++ "_" ++ inF
      let job : Job :=
        { id := jobId, status := "processing", inputFile := some inF,
          inputFiles := [], outputFile := outputFilename, filterType := some ft,
          startTime := now, endTime := none, progress := 0, error := none }
      let st' := { st with activeJobs := mapSet st.activeJobs jobId job }
      if supportedFilters.contains ft then
        (.okJob jobId (ft ++ " filter started"), st')
      else
        (.badRequest "Unsupported filter type", st')
    else
      (.notFound "Input file not found", st)
  | _, _ => (.badRequest "inputFile and filterType are required", st)

/-- `GET /api/job/:jobId` — read-only. -/
def apiGetJob (st : ServerState) (jobId : String) : ApiResponse :=
  match mapGet st.activeJobs jobId with
  | none => .notFound "Job not found"
  | some job => .okJobRecord job

/-- `GET /api/jobs` — read-only. -/
def apiListJobs (st : ServerState) : ApiResponse :=
  .okJobList (st.activeJobs.map Prod.snd)

/-! ## Engine events

Every job-creating route installs the same three fluent-ffmpeg handlers:
`on('progress')` stores `Math.round(progress.percent || 0)` and broadcasts
it, `on('end')` finalizes the record to completed/100 and broadcasts 100,
`on('error')` finalizes it to failed with the message and broadcasts
nothing. -/

inductive EngineEvent where
  /-- `on('progress', ...)`; `percent` is `none` when `progress.percent`
  is undefined. -/
  | progressEv (percent : Option ℚ)
  /-- `on('end', ...)`; carries the wall-clock time of the event. -/
  | endEv (now : ℤ)
  /-- `on('error', ...)`; carries `err.message` and the time. -/
  | errorEv (msg : String) (now : ℤ)
deriving DecidableEq, Repr

def onProgressEvent (job : Job) (percent : Option ℚ) : Job :=
  { job with progress := jsRound (percentOrZero percent) }

def onEndEvent (job : Job) (now : ℤ) : Job :=
  { job with status := "completed", endTime := some now, progress := 100 }

def onErrorEvent (job : Job) (msg : String) (now : ℤ) : Job :=
  { job with status := "failed", error := some msg, endTime := some now }

/-- Apply one engine event for the given job id to the job map.  Returns the
new map and the list of `broadcastProgress` calls the handler issued, as
(jobId, value) pairs.  The handlers close over the record stored at job
creation, which is never removed, so the `none` branch is unreachable in any
run of the real system. -/
def handleEngineEvent (jobs : List (String × Job)) (jobId : String)
    (ev : EngineEvent) : List (String × Job) × List (String × ℤ) :=
  match mapGet jobs jobId with
  | none => (jobs, [])
  | some job =>
    match ev with
    | .progressEv pct =>
      let j := onProgressEvent job pct
      (mapSet jobs jobId j, [(jobId, j.progress)])
    | .endEv now =>
      (mapSet jobs jobId (onEndEvent job now), [(jobId, 100)])
    | .errorEv msg now =>
      (mapSet jobs jobId (onErrorEvent job msg now), [])

/-- Run a full event trace for one job, collecting all broadcasts in order. -/
def runEngineEvents (jobs : List (String × Job)) (jobId : String) :
    List EngineEvent → List (String × Job) × List (String × ℤ)
  | [] => (jobs, [])
  | ev :: rest =>
    let r1 := handleEngineEvent jobs jobId ev
    let r2 := runEngineEvents r1.1 jobId rest
    (r2.1, r1.2 ++ r2.2)

/-! ## WebSocket connection registry -/

/-- One live connection: its key in `activeConnections`, the `ws.jobId`
field set by subscribe messages (absent until the first subscribe), and
whether `ws.readyState === WebSocket.OPEN`. -/
structure WsConn where
  connId : String
  jobId : Option String
  isOpen : Bool
deriving DecidableEq, Repr

/-- A message delivered by `ws.send`: the target connection and the
payload fields `jobId` and `progress` of the JSON progress message. -/
structure WsMsg where
  target : String
  jobId : String
  progress : ℤ
deriving DecidableEq, Repr

/-- `broadcastProgress(jobId, progress)`: iterate all registered connections
and send to each whose `ws.jobId` strictly equals the job id and whose
transport is open; all others are skipped. -/
def broadcastProgress (conns : List WsConn) (jobId : String) (progress : ℤ) :
    List WsMsg :=
  conns.filterMap fun ws =>
    if ws.jobId = some jobId ∧ ws.isOpen then
      some ⟨ws.connId, jobId, progress⟩
    else none

/-- The result of `JSON.parse` on an incoming WebSocket message: a thrown
`SyntaxError` (`malformed`); the valid JSON value `null` (`nullPayload`),
on which the subsequent property access `data.type` throws a `TypeError`;
or any other parsed value, whose `type` and `jobId` fields are extracted
(`none` = absent, which also covers non-object values such as numbers or
strings, where property access yields `undefined` without throwing;
`data.jobId` of `""` is falsy). -/
inductive WsRaw where
  | malformed
  | nullPayload
  | parsed (type : Option String) (jobId : Option String)
deriving DecidableEq, Repr

/-- The `ws.on('message')` handler of one connection.  `JSON.parse` is not
wrapped in try/catch, so a malformed payload throws a `SyntaxError`
(modelled as `Except.error`); the well-formed payload `null` throws a
`TypeError` when `data.type` is read; any other parsed message updates
`ws.jobId` exactly when `data.type === 'subscribe' && data.jobId` holds,
and is otherwise a no-op. -/
def onMessage (ws : WsConn) (raw : WsRaw) : Except String WsConn :=
  match raw with
  | .malformed => .error "SyntaxError: Unexpected token in JSON"
  | .nullPayload => .error "TypeError: Cannot read properties of null"
  | .parsed ty jid =>
    if ty = some "subscribe" ∧ jid.getD "" ≠ "" then
      .ok { ws with jobId := jid }
    else
      .ok ws

/-- Events driving the connection registry. -/
inductive WsAction where
  /-- `wss.on('connection')`: register with a fresh uuid, no subscription. -/
  | connect (connId : String)
  /-- a message arrives on the named connection. -/
  | message (connId : String) (raw : WsRaw)
  /-- `ws.on('close')`: `activeConnections.delete(connectionId)`. -/
  | close (connId : String)
  /-- the orchestrator calls `broadcastProgress(jobId, progress)`. -/
  | broadcast (jobId : String) (progress : ℤ)
deriving DecidableEq, Repr

/-- Registry step: new registry plus the messages sent.  A malformed message
propagates the `JSON.parse` exception. -/
def wsStep (conns : List WsConn) :
    WsAction → Except String (List WsConn × List WsMsg)
  | .connect cid => .ok (conns ++ [⟨cid, none, true⟩], [])
  | .message cid raw =>
    match raw with
    | .malformed => .error "SyntaxError: Unexpected token in JSON"
    | .nullPayload => .error "TypeError: Cannot read properties of null"
    | .parsed ty jid =>
      .ok (conns.map (fun ws =>
        if ws.connId = cid then
          if ty = some "subscribe" ∧ jid.getD "" ≠ "" then
            { ws with jobId := jid }
          else ws
        else ws), [])
  | .close cid => .ok (conns.filter (fun ws => ws.connId ≠ cid), [])
  | .broadcast jobId progress => .ok (conns, broadcastProgress conns jobId progress)

/-! ## Retention sweeper (daily cleanup cron) -/

/-- `7 * 24 * 60 * 60 * 1000` milliseconds. -/
def maxAgeMs : ℤ := 7 * 24 * 60 * 60 * 1000

/-- One directory pass of the cleanup job: unlink every file with
`now - stats.birthtime.getTime() > maxAge`.  A rejected `unlink` throws out
of the `for` loop (there is no per-entry catch), so the failing file and
every file after it are left in place; the Bool reports whether the pass
finished without throwing. -/
def sweepDir (now maxAge : ℤ) : List FsFile → List FsFile × Bool
  | [] => ([], true)
  | f :: rest =>
    if now - f.birthtime > maxAge then
      if f.unlinkFails then (f :: rest, false)
      else sweepDir now maxAge rest
    else
      let r := sweepDir now maxAge rest
      (f :: r.1, r.2)

/-- The `cron.schedule('0 0 * * *')` body: sweep `uploads/`, then
`outputs/`.  The single try/catch wraps both loops, so an exception while
sweeping uploads skips the outputs sweep entirely. -/
def cleanupJob (now : ℤ) (uploads outputs : List FsFile) :
    List FsFile × List FsFile :=
  let u := sweepDir now maxAgeMs uploads
  if u.2 then (u.1, (sweepDir now maxAgeMs outputs).1)
  else (u.1, outputs)

/-! ## The whole subsystem as one step function -/

/-- Every operation of the subsystem that can touch the server state. -/
inductive SysOp where
  | convert (jobId : String) (now : ℤ) (inputFile outputFormat : Option String)
  | trim (jobId : String) (now : ℤ) (inputFile startTime duration : Option String)
  | merge (jobId : String) (now : ℤ) (inputFiles : Option (List String))
  | filterOp (jobId : String) (now : ℤ) (inputFile filterType : Option String)
  | getJob (jobId : String)
  | listJobs
  | engineEvent (jobId : String) (ev : EngineEvent)
  | sweep (now : ℤ)
deriving DecidableEq, Repr

def sysStep (st : ServerState) : SysOp → ServerState
  | .convert jobId now inF fmt => (apiConvert st jobId now inF fmt).2
  | .trim jobId now inF stt dur => (apiTrim st jobId now inF stt dur).2
  | .merge jobId now files => (apiMerge st jobId now files).2
  | .filterOp jobId now inF ft => (apiFilter st jobId now inF ft).2
  | .getJob _ => st
  | .listJobs => st
  | .engineEvent jobId ev =>
    { st with activeJobs := (handleEngineEvent st.activeJobs jobId ev).1 }
  | .sweep now =>
    let r := cleanupJob now st.uploads st.outputs
    { st with uploads := r.1, outputs := r.2 }

/-! ## General lemmas -/

theorem jsRound_eq_floor (q : ℚ) : jsRound q = ⌊q + 1/2⌋ := by
  have hd : ((q.den : ℚ)) ≠ 0 := by exact_mod_cast q.den_nz
  have hnum : (q.num : ℚ) = q * q.den := (div_eq_iff hd).mp (Rat.num_div_den q)
  have h2d : (2 * (q.den : ℚ)) ≠ 0 := by simp [hd]
  have h : q + 1/2 = ((2 * q.num + q.den : ℤ) : ℚ) / ((2 * q.den : ℕ) : ℚ) := by
    push_cast
    rw [eq_div_iff h2d]
    linear_combination (-2 : ℚ) * hnum
  rw [jsRound, h, Rat.floor_intCast_div_natCast]
  norm_cast

theorem jsRound_nonneg {q : ℚ} (h : 0 ≤ q) : 0 ≤ jsRound q := by
  rw [jsRound_eq_floor]
  have : (0 : ℚ) ≤ q + 1/2 := by linarith
  exact_mod_cast Int.le_floor.mpr (by exact_mod_cast this)

theorem jsRound_le_hundred {q : ℚ} (h : q ≤ 100) : jsRound q ≤ 100 := by
  rw [jsRound_eq_floor]
  have h1 : q + 1/2 < (101 : ℤ) := by push_cast; linarith
  exact Int.lt_add_one_iff.mp (Int.floor_lt.mpr h1)

theorem mapGet_mapSet_self {α : Type} (m : List (String × α)) (k : String)
    (v : α) : mapGet (mapSet m k v) k = some v := by
  induction m with
  | nil => simp [mapSet, mapGet]
  | cons p rest ih =>
    obtain ⟨pk, pv⟩ := p
    by_cases h : pk = k
    · simp [mapSet, mapGet, h]
    · simp [mapSet, mapGet, h, ih]

theorem mapGet_mapSet_ne {α : Type} (m : List (String × α)) (k k' : String)
    (v : α) (hne : k' ≠ k) : mapGet (mapSet m k v) k' = mapGet m k' := by
  induction m with
  | nil => simp [mapSet, mapGet, Ne.symm hne]
  | cons p rest ih =>
    obtain ⟨pk, pv⟩ := p
    by_cases h : pk = k
    · subst h
      simp [mapSet, mapGet, Ne.symm hne]
    · by_cases h' : pk = k'
      · subst h'
        simp [mapSet, mapGet, h, hne]
      · simp [mapSet, mapGet, h, h', ih]

/-- Keys present in a map survive `mapSet`. -/
theorem mapGet_mapSet_preserves {α : Type} (m : List (String × α))
    (k k' : String) (v : α) (j : α) (h : mapGet m k' = some j) :
    ∃ j', mapGet (mapSet m k v) k' = some j' := by
  by_cases hk : k' = k
  · exact ⟨v, hk ▸ mapGet_mapSet_self m k v⟩
  · exact ⟨j, (mapGet_mapSet_ne m k k' v hk).symm ▸ h⟩

/-- Characterization of broadcast delivery: a message is sent exactly to the
registered connections whose subscription equals the job id and whose
transport is open. -/
theorem mem_broadcastProgress (conns : List WsConn) (jobId : String) (p : ℤ)
    (m : WsMsg) :
    m ∈ broadcastProgress conns jobId p ↔
      ∃ ws ∈ conns, ws.jobId = some jobId ∧ ws.isOpen = true ∧
        m = ⟨ws.connId, jobId, p⟩ := by
  constructor
  · intro hm
    obtain ⟨ws, hws, hf⟩ := List.mem_filterMap.mp hm
    by_cases hcond : ws.jobId = some jobId ∧ ws.isOpen = true
    · refine ⟨ws, hws, hcond.1, hcond.2, ?_⟩
      rw [if_pos hcond] at hf
      exact (Option.some_inj.mp hf).symm
    · rw [if_neg hcond] at hf
      exact Option.noConfusion hf
  · rintro ⟨ws, hws, h1, h2, rfl⟩
    exact List.mem_filterMap.mpr ⟨ws, hws, by rw [if_pos ⟨h1, h2⟩]⟩

/-! ## Claims -/

/-- C1, refuted as stated: `POST /api/trim` performs no existence check on
its input.  With an empty `uploads/` directory, trimming the nonexistent
`ghost.mp4` returns a 200 with a job id — not a 404 — and inserts a job
record into `activeJobs`. -/
theorem C1_counterexample :
    fileExists (ServerState.mk [] [] []).uploads "ghost.mp4" = false ∧
    (apiTrim ⟨[], [], []⟩ "j1" 0 (some "ghost.mp4") (some "00:00:30")
        (some "00:01:00")).1 = ApiResponse.okJob "j1" "Trimming started" ∧
    ((apiTrim ⟨[], [], []⟩ "j1" 0 (some "ghost.mp4") (some "00:00:30")
        (some "00:01:00")).2).activeJobs.length = 1 := by
  decide

/-- C1, amended: convert and filter submissions referencing a missing input
artifact return `NotFound` with the Job Store unchanged, but trim and merge
perform no input-existence pre-check at all — they insert a `processing`
job record and return the job id regardless of whether the inputs exist. -/
theorem C1_main :
    (∀ st jobId now inF fmt, inF ≠ "" → fmt ≠ "" →
      fileExists st.uploads inF = false →
      apiConvert st jobId now (some inF) (some fmt) =
        (.notFound "Input file not found", st)) ∧
    (∀ st jobId now inF ft, inF ≠ "" → ft ≠ "" →
      fileExists st.uploads inF = false →
      apiFilter st jobId now (some inF) (some ft) =
        (.notFound "Input file not found", st)) ∧
    (∀ st jobId now inF stt dur, inF ≠ "" → stt ≠ "" → dur ≠ "" →
      (apiTrim st jobId now (some inF) (some stt) (some dur)).1 =
        .okJob jobId "Trimming started" ∧
      ∃ job, (apiTrim st jobId now (some inF) (some stt) (some dur)).2.activeJobs
          = mapSet st.activeJobs jobId job ∧ job.status = "processing") ∧
    (∀ st jobId now files, 2 ≤ (files : List String).length →
      (apiMerge st jobId now (some files)).1 = .okJob jobId "Merging started" ∧
      ∃ job, (apiMerge st jobId now (some files)).2.activeJobs
          = mapSet st.activeJobs jobId job ∧ job.status = "processing") := by
  refine ⟨?_, ?_, ?_, ?_⟩
  · intro st jobId now inF fmt h1 h2 h3
    simp [apiConvert, h1, h2, h3]
  · intro st jobId now inF ft h1 h2 h3
    simp [apiFilter, h1, h2, h3]
  · intro st jobId now inF stt dur h1 h2 h3
    refine ⟨by simp [apiTrim, h1, h2, h3], ?_⟩
    exact ⟨⟨jobId, "processing", some inF, [], "trimmed-" ++ jobId ++ "-" ++ inF,
      none, now, none, 0, none⟩, by simp [apiTrim, h1, h2, h3], rfl⟩
  · intro st jobId now files h
    have h2 : ¬ files.length < 2 := by omega
    refine ⟨by simp [apiMerge, h2], ?_⟩
    exact ⟨⟨jobId, "processing", none, files, "merged-" ++ jobId ++ ".mp4",
      none, now, none, 0, none⟩, by simp [apiMerge, h2], rfl⟩

/-- Witness for `C1_main` at concrete inputs. -/
theorem C1_witness :
    apiConvert ⟨[], [], []⟩ "j1" 0 (some "a.mp4") (some "webm") =
      (.notFound "Input file not found", (⟨[], [], []⟩ : ServerState)) ∧
    apiFilter ⟨[], [], []⟩ "j2" 0 (some "a.mp4") (some "blur") =
      (.notFound "Input file not found", (⟨[], [], []⟩ : ServerState)) ∧
    (apiTrim ⟨[], [], []⟩ "j3" 0 (some "a.mp4") (some "1") (some "2")).1 =
      .okJob "j3" "Trimming started" ∧
    (apiMerge ⟨[], [], []⟩ "j4" 0 (some ["a.mp4", "b.mp4"])).1 =
      .okJob "j4" "Merging started" := by
  refine ⟨?_, ?_, ?_, ?_⟩
  · exact C1_main.1 ⟨[], [], []⟩ "j1" 0 "a.mp4" "webm"
      (by decide) (by decide) (by decide)
  · exact C1_main.2.1 ⟨[], [], []⟩ "j2" 0 "a.mp4" "blur"
      (by decide) (by decide) (by decide)
  · exact (C1_main.2.2.1 ⟨[], [], []⟩ "j3" 0 "a.mp4" "1" "2"
      (by decide) (by decide) (by decide)).1
  · exact (C1_main.2.2.2 ⟨[], [], []⟩ "j4" 0 ["a.mp4", "b.mp4"]
      (by decide)).1

/-- C2, refuted as stated: the progress handler stores
`Math.round(progress.percent || 0)` with no clamping.  An engine report of
150.5 percent is stored as 151, outside [0,100] (round-and-clamp would
store 100). -/
theorem C2_counterexample :
    (onProgressEvent ⟨"j1", "processing", some "a.mp4", [], "o.webm", none,
        0, none, 0, none⟩ (some (mkRat 301 2))).progress = 151 ∧
    ¬ (onProgressEvent ⟨"j1", "processing", some "a.mp4", [], "o.webm", none,
        0, none, 0, none⟩ (some (mkRat 301 2))).progress ≤ 100 := by
  decide

/-- C2, amended: the progress handler stores exactly
`Math.round(progress.percent || 0)` — rounding to nearest, missing or zero
treated as 0, but with no clamping — and broadcasts that same stored value
for the job id; the stored value lies in [0,100] whenever the
engine-reported percentage does. -/
theorem C2_main :
    (∀ jobs jobId job pct, mapGet jobs jobId = some job →
      handleEngineEvent jobs jobId (.progressEv pct) =
        (mapSet jobs jobId (onProgressEvent job pct),
         [(jobId, (onProgressEvent job pct).progress)]) ∧
      (onProgressEvent job pct).progress = jsRound (percentOrZero pct)) ∧
    (∀ job, (onProgressEvent job none).progress = 0) ∧
    (∀ job, (onProgressEvent job (some 0)).progress = 0) ∧
    (∀ q : ℚ, 0 ≤ q → q ≤ 100 → 0 ≤ jsRound q ∧ jsRound q ≤ 100) := by
  refine ⟨?_, ?_, ?_, ?_⟩
  · intro jobs jobId job pct h
    simp [handleEngineEvent, h, onProgressEvent]
  · intro job
    simp [onProgressEvent, percentOrZero]
    decide
  · intro job
    simp [onProgressEvent, percentOrZero]
    decide
  · intro q h0 h100
    exact ⟨jsRound_nonneg h0, jsRound_le_hundred h100⟩

/-- Witness for `C2_main` at concrete inputs. -/
theorem C2_witness :
    mapGet [("j1", (⟨"j1", "processing", some "a.mp4", [], "o.webm", none,
        0, none, 0, none⟩ : Job))] "j1" = some ⟨"j1", "processing",
        some "a.mp4", [], "o.webm", none, 0, none, 0, none⟩ ∧
    (onProgressEvent ⟨"j1", "processing", some "a.mp4", [], "o.webm", none,
        0, none, 0, none⟩ (some (mkRat 253 10))).progress =
      jsRound (percentOrZero (some (mkRat 253 10))) ∧
    (0 : ℚ) ≤ mkRat 253 10 ∧ (mkRat 253 10 : ℚ) ≤ 100 ∧
    0 ≤ jsRound (mkRat 253 10) ∧ jsRound (mkRat 253 10) ≤ 100 := by
  refine ⟨by decide, ?_, by decide, by decide, ?_, ?_⟩
  · exact (C2_main.1 [("j1", ⟨"j1", "processing", some "a.mp4", [],
      "o.webm", none, 0, none, 0, none⟩)] "j1" _ (some (mkRat 253 10))
      (by decide)).2
  · exact (C2_main.2.2.2 (mkRat 253 10) (by decide) (by decide)).1
  · exact (C2_main.2.2.2 (mkRat 253 10) (by decide) (by decide)).2

/-- C3, refuted as stated: `POST /api/filter` runs its filter-type `switch`
only after `activeJobs.set(jobId, job)`.  An unsupported filter type on an
existing input returns 400 InvalidArgument, yet a `processing` job record
has already been inserted — a Job Store mutation. -/
theorem C3_counterexample :
    (apiFilter ⟨[], [⟨"v.mp4", 0, false⟩], []⟩ "j1" 0 (some "v.mp4")
        (some "sepia")).1 = ApiResponse.badRequest "Unsupported filter type" ∧
    ((apiFilter ⟨[], [⟨"v.mp4", 0, false⟩], []⟩ "j1" 0 (some "v.mp4")
        (some "sepia")).2).activeJobs.length = 1 := by
  decide

/-- C3, amended: merge with fewer than two inputs and convert with a
missing target format are rejected with `InvalidArgument` before any job
record is created, with the state unchanged; filter with an unsupported
filter type is also rejected with `InvalidArgument`, but only after the
`processing` job record has been inserted into the Job Store (one
mutation). -/
theorem C3_main :
    (∀ st jobId now (files : List String), files.length < 2 →
      apiMerge st jobId now (some files) =
        (.badRequest "At least 2 input files are required", st)) ∧
    (∀ st jobId now, apiMerge st jobId now none =
        (.badRequest "At least 2 input files are required", st)) ∧
    (∀ st jobId now inF, apiConvert st jobId now inF none =
        (.badRequest "inputFile and outputFormat are required", st)) ∧
    (∀ st jobId now inF ft, inF ≠ "" → ft ≠ "" →
      fileExists st.uploads inF = true →
      supportedFilters.contains ft = false →
      (apiFilter st jobId now (some inF) (some ft)).1 =
        .badRequest "Unsupported filter type" ∧
      ∃ job, (apiFilter st jobId now (some inF) (some ft)).2.activeJobs
          = mapSet st.activeJobs jobId job ∧
        job.status = "processing" ∧ job.filterType = some ft) := by
  refine ⟨?_, ?_, ?_, ?_⟩
  · intro st jobId now files h
    simp [apiMerge, h]
  · intro st jobId now
    simp [apiMerge]
  · intro st jobId now inF
    rcases inF with _ | x <;> simp [apiConvert]
  · intro st jobId now inF ft h1 h2 h3 h4
    have h4' : ft ∉ supportedFilters := by simpa using h4
    refine ⟨by simp [apiFilter, h1, h2, h3, h4'], ?_⟩
    exact ⟨⟨jobId, "processing", some inF, [],
      "filtered_" ++ ft ++ "_" ++ jobId ++ "_" ++ inF, some ft, now, none, 0,
      none⟩, by simp [apiFilter, h1, h2, h3, h4'], rfl, rfl⟩

/-- Witness for `C3_main` at concrete inputs. -/
theorem C3_witness :
    apiMerge ⟨[], [], []⟩ "j1" 0 (some ["only.mp4"]) =
      (.badRequest "At least 2 input files are required",
        (⟨[], [], []⟩ : ServerState)) ∧
    apiConvert ⟨[], [], []⟩ "j2" 0 (some "a.mp4") none =
      (.badRequest "inputFile and outputFormat are required",
        (⟨[], [], []⟩ : ServerState)) ∧
    (apiFilter ⟨[], [⟨"v.mp4", 0, false⟩], []⟩ "j3" 0 (some "v.mp4")
        (some "sepia")).1 = .badRequest "Unsupported filter type" := by
  refine ⟨?_, ?_, ?_⟩
  · exact C3_main.1 ⟨[], [], []⟩ "j1" 0 ["only.mp4"] (by decide)
  · exact C3_main.2.2.1 ⟨[], [], []⟩ "j2" 0 (some "a.mp4")
  · exact (C3_main.2.2.2 ⟨[], [⟨"v.mp4", 0, false⟩], []⟩ "j3" 0 "v.mp4"
      "sepia" (by decide) (by decide) (by decide) (by decide)).1

/-- C4, refuted as stated: the cleanup cron's single try/catch wraps both
directory loops, so one rejected `fs.unlink` aborts the whole sweep.  Here
two uploads are both older than the 7-day threshold; removal of the first
fails, and the second eligible entry is retained rather than removed. -/
theorem C4_counterexample :
    maxAgeMs + 1 - (0 : ℤ) > maxAgeMs ∧
    cleanupJob (maxAgeMs + 1) [⟨"a", 0, true⟩, ⟨"b", 0, false⟩] [] =
      ([⟨"a", 0, true⟩, ⟨"b", 0, false⟩], []) := by
  decide

/-- C4, amended: when no removal fails, a sweep removes exactly the entries
older than the threshold and retains the newer ones; but a removal failure
on one eligible entry aborts the sweep — the failing entry and every entry
after it in the same directory are retained, and the outputs directory is
not swept at all when the uploads sweep throws. -/
theorem C4_main :
    (∀ now maxAge (files : List FsFile),
      (∀ f ∈ files, now - f.birthtime > maxAge → f.unlinkFails = false) →
      sweepDir now maxAge files =
        (files.filter (fun f => decide (now - f.birthtime ≤ maxAge)), true)) ∧
    (∀ now maxAge (pre : List FsFile) f (post : List FsFile),
      (∀ g ∈ pre, now - g.birthtime > maxAge → g.unlinkFails = false) →
      now - f.birthtime > maxAge → f.unlinkFails = true →
      sweepDir now maxAge (pre ++ f :: post) =
        (pre.filter (fun g => decide (now - g.birthtime ≤ maxAge)) ++ f :: post,
         false)) ∧
    (∀ now (uploads outputs : List FsFile),
      (sweepDir now maxAgeMs uploads).2 = false →
      cleanupJob now uploads outputs =
        ((sweepDir now maxAgeMs uploads).1, outputs)) := by
  refine ⟨?_, ?_, ?_⟩
  · intro now maxAge files h
    induction files with
    | nil => simp [sweepDir]
    | cons f rest ih =>
      have hrest : ∀ g ∈ rest, now - g.birthtime > maxAge → g.unlinkFails = false :=
        fun g hg => h g (List.mem_cons_of_mem f hg)
      by_cases hc : now - f.birthtime > maxAge
      · have hf : f.unlinkFails = false := h f (List.mem_cons_self f rest) hc
        have hnle : ¬ now - f.birthtime ≤ maxAge := not_le.mpr hc
        have hnle' : ¬ now ≤ maxAge + f.birthtime := by omega
        simp [sweepDir, hc, hf, hnle, hnle', List.filter_cons, ih hrest]
      · have hle : now - f.birthtime ≤ maxAge := not_lt.mp hc
        have hle' : now ≤ maxAge + f.birthtime := by omega
        simp [sweepDir, hc, hle, hle', List.filter_cons, ih hrest]
  · intro now maxAge pre f post hpre hf hfail
    induction pre with
    | nil =>
      have hnle : ¬ now - f.birthtime ≤ maxAge := not_le.mpr hf
      simp [sweepDir, hf, hfail, hnle]
    | cons g rest ih =>
      have hrest : ∀ g' ∈ rest, now - g'.birthtime > maxAge → g'.unlinkFails = false :=
        fun g' hg' => hpre g' (List.mem_cons_of_mem g hg')
      by_cases hc : now - g.birthtime > maxAge
      · have hg : g.unlinkFails = false := hpre g (List.mem_cons_self g rest) hc
        have hnle : ¬ now - g.birthtime ≤ maxAge := not_le.mpr hc
        have hnle' : ¬ now ≤ maxAge + g.birthtime := by omega
        simp [sweepDir, hc, hg, hnle, hnle', List.filter_cons, ih hrest]
      · have hle : now - g.birthtime ≤ maxAge := not_lt.mp hc
        have hle' : now ≤ maxAge + g.birthtime := by omega
        simp [sweepDir, hc, hle, hle', List.filter_cons, ih hrest]
  · intro now uploads outputs h
    simp [cleanupJob, h]

/-- Witness for `C4_main` at concrete inputs. -/
theorem C4_witness :
    (∀ f ∈ [(⟨"old", 0, false⟩ : FsFile), ⟨"new", maxAgeMs, false⟩],
      maxAgeMs + 1 - f.birthtime > maxAgeMs → f.unlinkFails = false) ∧
    sweepDir (maxAgeMs + 1) maxAgeMs [⟨"old", 0, false⟩, ⟨"new", maxAgeMs, false⟩]
      = ([⟨"new", maxAgeMs, false⟩], true) ∧
    cleanupJob (maxAgeMs + 1) [⟨"a", 0, true⟩, ⟨"b", 0, false⟩] [⟨"c", 0, false⟩]
      = ([⟨"a", 0, true⟩, ⟨"b", 0, false⟩], [⟨"c", 0, false⟩]) := by
  refine ⟨by decide, ?_, ?_⟩
  · have := C4_main.1 (maxAgeMs + 1) maxAgeMs
      [⟨"old", 0, false⟩, ⟨"new", maxAgeMs, false⟩] (by decide)
    rw [this]
    decide
  · have := C4_main.2.2 (maxAgeMs + 1) [⟨"a", 0, true⟩, ⟨"b", 0, false⟩]
      [⟨"c", 0, false⟩] (by decide)
    rw [this]
    decide

/-- C5, confirmed: for a job whose engine emits any progress events followed
by a single `end` event, the final stored record has status `completed`,
progress 100, and `endTime` set to the terminal time (which is at or after
the unchanged `startTime`), and the broadcast trace is the progress
broadcasts followed by exactly one final broadcast of 100 for the job id. -/
theorem C5_main (jobs : List (String × Job)) (jobId : String) (job : Job)
    (ps : List (Option ℚ)) (tEnd : ℤ)
    (hget : mapGet jobs jobId = some job) (hts : job.startTime ≤ tEnd) :
    (∃ j', mapGet (runEngineEvents jobs jobId
        (ps.map EngineEvent.progressEv ++ [EngineEvent.endEv tEnd])).1 jobId
        = some j' ∧
      j'.status = "completed" ∧ j'.progress = 100 ∧ j'.endTime = some tEnd ∧
      j'.startTime = job.startTime ∧ j'.startTime ≤ tEnd) ∧
    (runEngineEvents jobs jobId
        (ps.map EngineEvent.progressEv ++ [EngineEvent.endEv tEnd])).2
      = ps.map (fun p => (jobId, jsRound (percentOrZero p))) ++ [(jobId, 100)] := by
  induction ps generalizing jobs job with
  | nil =>
    have h1 : handleEngineEvent jobs jobId (.endEv tEnd) =
        (mapSet jobs jobId (onEndEvent job tEnd), [(jobId, 100)]) := by
      simp [handleEngineEvent, hget]
    constructor
    · refine ⟨onEndEvent job tEnd, ?_, rfl, rfl, rfl, rfl, hts⟩
      simp [runEngineEvents, h1, mapGet_mapSet_self]
    · simp [runEngineEvents, h1]
  | cons p ps ih =>
    have h1 : handleEngineEvent jobs jobId (.progressEv p) =
        (mapSet jobs jobId (onProgressEvent job p),
         [(jobId, (onProgressEvent job p).progress)]) := by
      simp [handleEngineEvent, hget]
    have hget1 : mapGet (mapSet jobs jobId (onProgressEvent job p)) jobId =
        some (onProgressEvent job p) := mapGet_mapSet_self _ _ _
    have hts1 : (onProgressEvent job p).startTime ≤ tEnd := hts
    obtain ⟨⟨j', hj1, hj2, hj3, hj4, hj5, hj6⟩, hbr⟩ :=
      ih (mapSet jobs jobId (onProgressEvent job p)) (onProgressEvent job p)
        hget1 hts1
    constructor
    · refine ⟨j', ?_, hj2, hj3, hj4, hj5, hj6⟩
      simpa [runEngineEvents, h1] using hj1
    · simp only [List.map_cons, List.cons_append, runEngineEvents, h1,
        List.singleton_append, List.nil_append, List.append_eq]
      rw [hbr]
      rfl

/-- Witness for `C5_main` at concrete inputs. -/
theorem C5_witness :
    mapGet [("j1", (⟨"j1", "processing", some "a.mp4", [], "o.webm", none,
        0, none, 0, none⟩ : Job))] "j1" = some ⟨"j1", "processing",
        some "a.mp4", [], "o.webm", none, 0, none, 0, none⟩ ∧
    (⟨"j1", "processing", some "a.mp4", [], "o.webm", none,
        0, none, 0, none⟩ : Job).startTime ≤ 9 ∧
    ((∃ j', mapGet (runEngineEvents
        [("j1", ⟨"j1", "processing", some "a.mp4", [], "o.webm", none,
          0, none, 0, none⟩)] "j1"
        ([some (mkRat 25 1), some (mkRat 60 1)].map EngineEvent.progressEv ++
          [EngineEvent.endEv 9])).1 "j1" = some j' ∧
      j'.status = "completed" ∧ j'.progress = 100 ∧ j'.endTime = some 9 ∧
      j'.startTime = (⟨"j1", "processing", some "a.mp4", [], "o.webm", none,
        0, none, 0, none⟩ : Job).startTime ∧ j'.startTime ≤ 9) ∧
    (runEngineEvents
        [("j1", ⟨"j1", "processing", some "a.mp4", [], "o.webm", none,
          0, none, 0, none⟩)] "j1"
        ([some (mkRat 25 1), some (mkRat 60 1)].map EngineEvent.progressEv ++
          [EngineEvent.endEv 9])).2
      = [some (mkRat 25 1), some (mkRat 60 1)].map
          (fun p => ("j1", jsRound (percentOrZero p))) ++ [("j1", 100)]) := by
  refine ⟨by decide, by decide, ?_⟩
  exact C5_main [("j1", ⟨"j1", "processing", some "a.mp4", [], "o.webm",
    none, 0, none, 0, none⟩)] "j1" _ [some (mkRat 25 1), some (mkRat 60 1)] 9
    (by decide) (by decide)

/-- C6, confirmed: an engine `error` event finalizes the job record to
status `failed` with the message in its `error` field and `endTime` set;
the handler issues no broadcast, makes no further engine invocation
(its entire effect is the one map update), and every other job's record
is untouched. -/
theorem C6_main (jobs : List (String × Job)) (jobId : String) (job : Job)
    (msg : String) (t : ℤ) (hget : mapGet jobs jobId = some job) :
    handleEngineEvent jobs jobId (.errorEv msg t) =
      (mapSet jobs jobId (onErrorEvent job msg t), []) ∧
    mapGet (handleEngineEvent jobs jobId (.errorEv msg t)).1 jobId =
      some (onErrorEvent job msg t) ∧
    (onErrorEvent job msg t).status = "failed" ∧
    (onErrorEvent job msg t).error = some msg ∧
    (onErrorEvent job msg t).endTime = some t ∧
    (onErrorEvent job msg t).progress = job.progress ∧
    (∀ other, other ≠ jobId →
      mapGet (handleEngineEvent jobs jobId (.errorEv msg t)).1 other =
        mapGet jobs other) := by
  have h1 : handleEngineEvent jobs jobId (.errorEv msg t) =
      (mapSet jobs jobId (onErrorEvent job msg t), []) := by
    simp [handleEngineEvent, hget]
  refine ⟨h1, ?_, rfl, rfl, rfl, rfl, ?_⟩
  · rw [h1]
    exact mapGet_mapSet_self _ _ _
  · intro other ho
    rw [h1]
    exact mapGet_mapSet_ne _ _ _ _ ho

/-- Witness for `C6_main` at concrete inputs. -/
theorem C6_witness :
    mapGet [("j1", (⟨"j1", "processing", some "a.mp4", [], "o.webm", none,
        0, none, 42, none⟩ : Job))] "j1" = some ⟨"j1", "processing",
        some "a.mp4", [], "o.webm", none, 0, none, 42, none⟩ ∧
    handleEngineEvent [("j1", ⟨"j1", "processing", some "a.mp4", [],
        "o.webm", none, 0, none, 42, none⟩)] "j1"
        (.errorEv "ffmpeg exited with code 1" 7) =
      (mapSet [("j1", ⟨"j1", "processing", some "a.mp4", [], "o.webm", none,
        0, none, 42, none⟩)] "j1"
        (onErrorEvent ⟨"j1", "processing", some "a.mp4", [], "o.webm", none,
          0, none, 42, none⟩ "ffmpeg exited with code 1" 7), []) := by
  refine ⟨by decide, ?_⟩
  exact (C6_main [("j1", ⟨"j1", "processing", some "a.mp4", [], "o.webm",
    none, 0, none, 42, none⟩)] "j1" _ "ffmpeg exited with code 1" 7
    (by decide)).1

/-- C7, confirmed: a broadcast delivers the message exactly to the
registered connections whose current subscription equals the job id and
whose transport is open (closed connections are skipped as a no-op), the
broadcast leaves the registry unchanged, and no registry action other than
`close` removes a connection. -/
theorem C7_main (conns : List WsConn) (jobId : String) (progress : ℤ) :
    wsStep conns (.broadcast jobId progress) =
      .ok (conns, broadcastProgress conns jobId progress) ∧
    (∀ m : WsMsg, m ∈ broadcastProgress conns jobId progress ↔
      ∃ ws ∈ conns, ws.jobId = some jobId ∧ ws.isOpen = true ∧
        m = ⟨ws.connId, jobId, progress⟩) ∧
    (∀ a conns' msgs, wsStep conns a = .ok (conns', msgs) →
      ∀ ws ∈ conns,
        (∃ ws' ∈ conns', ws'.connId = ws.connId) ∨ a = .close ws.connId) := by
  refine ⟨rfl, fun m => mem_broadcastProgress conns jobId progress m, ?_⟩
  intro a conns' msgs hstep ws hws
  cases a with
  | connect cid =>
    simp only [wsStep, Except.ok.injEq, Prod.mk.injEq] at hstep
    left
    exact ⟨ws, hstep.1 ▸ List.mem_append_left _ hws, rfl⟩
  | message cid raw =>
    cases raw with
    | malformed => simp [wsStep] at hstep
    | nullPayload => simp [wsStep] at hstep
    | parsed ty jid =>
      simp only [wsStep, Except.ok.injEq, Prod.mk.injEq] at hstep
      left
      refine ⟨_, hstep.1 ▸ List.mem_map_of_mem _ hws, ?_⟩
      by_cases h : ws.connId = cid <;>
        by_cases h' : (ty = some "subscribe" ∧ jid.getD "" ≠ "") <;>
        simp [h, h']
  | close cid =>
    by_cases h : ws.connId = cid
    · right
      rw [h]
    · simp only [wsStep, Except.ok.injEq, Prod.mk.injEq] at hstep
      left
      refine ⟨ws, ?_, rfl⟩
      rw [← hstep.1]
      exact List.mem_filter.mpr ⟨hws, by simp [h]⟩
  | broadcast j p =>
    simp only [wsStep, Except.ok.injEq, Prod.mk.injEq] at hstep
    left
    exact ⟨ws, hstep.1 ▸ hws, rfl⟩

/-- Witness for `C7_main` at concrete inputs. -/
theorem C7_witness :
    wsStep [⟨"c1", some "j1", true⟩, ⟨"c2", some "j1", false⟩,
        ⟨"c3", some "j2", true⟩] (.broadcast "j1" 40) =
      .ok ([⟨"c1", some "j1", true⟩, ⟨"c2", some "j1", false⟩,
        ⟨"c3", some "j2", true⟩],
        broadcastProgress [⟨"c1", some "j1", true⟩, ⟨"c2", some "j1", false⟩,
          ⟨"c3", some "j2", true⟩] "j1" 40) ∧
    broadcastProgress [⟨"c1", some "j1", true⟩, ⟨"c2", some "j1", false⟩,
        ⟨"c3", some "j2", true⟩] "j1" 40 = [⟨"c1", "j1", 40⟩] := by
  refine ⟨?_, by decide⟩
  exact (C7_main [⟨"c1", some "j1", true⟩, ⟨"c2", some "j1", false⟩,
    ⟨"c3", some "j2", true⟩] "j1" 40).1

/-- C8, confirmed: a subscribe message overwrites the connection's single
subscription field (last subscribe wins); after a connection subscribed to
A re-subscribes to B, every connection entry with its id carries
subscription B, broadcasts for A are no longer delivered to it, and
broadcasts for B are (when its transport is open). -/
theorem C8_main (conns : List WsConn) (cid A B : String) (ws : WsConn)
    (hws : ws ∈ conns) (hcid : ws.connId = cid) (hA : ws.jobId = some A)
    (hAB : A ≠ B) (hB : B ≠ "") :
    ∃ conns', wsStep conns (.message cid (.parsed (some "subscribe") (some B)))
        = .ok (conns', []) ∧
      { ws with jobId := some B } ∈ conns' ∧
      (∀ ws' ∈ conns', ws'.connId = cid → ws'.jobId = some B) ∧
      (∀ p : ℤ, ∀ m ∈ broadcastProgress conns' A p, ¬ m.target = cid) ∧
      (ws.isOpen = true →
        ∀ p : ℤ, (⟨cid, B, p⟩ : WsMsg) ∈ broadcastProgress conns' B p) := by
  refine ⟨conns.map (fun w =>
    if w.connId = cid then { w with jobId := some B } else w), ?_, ?_, ?_, ?_, ?_⟩
  · simp [wsStep, hB]
  · have hmem := List.mem_map_of_mem
      (fun w => if w.connId = cid then { w with jobId := some B } else w) hws
    simpa [hcid] using hmem
  · intro ws' hws' hc
    obtain ⟨w0, hw0, rfl⟩ := List.mem_map.mp hws'
    by_cases h : w0.connId = cid
    · simp [h]
    · rw [if_neg h] at hc ⊢
      exact absurd hc h
  · intro p m hm htgt
    obtain ⟨w', hw', hjob, hopen, rfl⟩ := (mem_broadcastProgress _ _ _ _).mp hm
    obtain ⟨w0, hw0, hw0eq⟩ := List.mem_map.mp hw'
    by_cases h : w0.connId = cid
    · rw [← hw0eq] at hjob
      rw [if_pos h] at hjob
      simp at hjob
      exact hAB (by simpa using hjob.symm)
    · rw [← hw0eq] at htgt
      rw [if_neg h] at htgt
      exact h htgt
  · intro hopen p
    refine (mem_broadcastProgress _ _ _ _).mpr
      ⟨{ ws with jobId := some B }, ?_, rfl, hopen, by simp [hcid]⟩
    have hmem := List.mem_map_of_mem
      (fun w => if w.connId = cid then { w with jobId := some B } else w) hws
    simpa [hcid] using hmem

/-- Witness for `C8_main` at concrete inputs. -/
theorem C8_witness :
    (⟨"c1", some "jA", true⟩ : WsConn) ∈
      [(⟨"c1", some "jA", true⟩ : WsConn), ⟨"c2", some "jA", true⟩] ∧
    (⟨"c1", some "jA", true⟩ : WsConn).connId = "c1" ∧
    (⟨"c1", some "jA", true⟩ : WsConn).jobId = some "jA" ∧
    "jA" ≠ "jB" ∧ "jB" ≠ "" ∧
    (∃ conns', wsStep [(⟨"c1", some "jA", true⟩ : WsConn),
        ⟨"c2", some "jA", true⟩]
        (.message "c1" (.parsed (some "subscribe") (some "jB")))
        = .ok (conns', []) ∧
      ({ (⟨"c1", some "jA", true⟩ : WsConn) with jobId := some "jB" }) ∈ conns' ∧
      (∀ ws' ∈ conns', ws'.connId = "c1" → ws'.jobId = some "jB") ∧
      (∀ p : ℤ, ∀ m ∈ broadcastProgress conns' "jA" p, ¬ m.target = "c1") ∧
      ((⟨"c1", some "jA", true⟩ : WsConn).isOpen = true →
        ∀ p : ℤ, (⟨"c1", "jB", p⟩ : WsMsg) ∈ broadcastProgress conns' "jB" p)) := by
  refine ⟨by decide, by decide, by decide, by decide, by decide, ?_⟩
  exact C8_main [⟨"c1", some "jA", true⟩, ⟨"c2", some "jA", true⟩]
    "c1" "jA" "jB" ⟨"c1", some "jA", true⟩ (by decide) (by decide)
    (by decide) (by decide) (by decide)

/-- C9, confirmed: the retention sweep leaves `activeJobs` untouched, and no
operation of the subsystem removes an existing job record — every job id
present before any step is still retrievable after it. -/
theorem C9_main (st : ServerState) :
    (∀ now, (sysStep st (.sweep now)).activeJobs = st.activeJobs) ∧
    (∀ op id j, mapGet st.activeJobs id = some j →
      ∃ j', mapGet (sysStep st op).activeJobs id = some j') := by
  constructor
  · intro now
    simp [sysStep]
  · intro op id j h
    cases op with
    | convert jobId now inF fmt =>
      rcases inF with _ | inF <;> rcases fmt with _ | fmt <;>
        simp only [sysStep, apiConvert] <;>
        first
          | exact ⟨j, h⟩
          | (split_ifs <;>
              first
                | exact ⟨j, h⟩
                | exact mapGet_mapSet_preserves _ _ _ _ _ h)
    | trim jobId now inF stt dur =>
      rcases inF with _ | inF <;> rcases stt with _ | stt <;>
        rcases dur with _ | dur <;>
        simp only [sysStep, apiTrim] <;>
        first
          | exact ⟨j, h⟩
          | (split_ifs <;>
              first
                | exact ⟨j, h⟩
                | exact mapGet_mapSet_preserves _ _ _ _ _ h)
    | merge jobId now files =>
      rcases files with _ | files <;>
        simp only [sysStep, apiMerge] <;>
        first
          | exact ⟨j, h⟩
          | (split_ifs <;>
              first
                | exact ⟨j, h⟩
                | exact mapGet_mapSet_preserves _ _ _ _ _ h)
    | filterOp jobId now inF ft =>
      rcases inF with _ | inF <;> rcases ft with _ | ft <;>
        simp only [sysStep, apiFilter] <;>
        first
          | exact ⟨j, h⟩
          | (split_ifs <;>
              first
                | exact ⟨j, h⟩
                | exact mapGet_mapSet_preserves _ _ _ _ _ h)
    | getJob jobId => exact ⟨j, h⟩
    | listJobs => exact ⟨j, h⟩
    | engineEvent jobId ev =>
      simp only [sysStep]
      rcases hj : mapGet st.activeJobs jobId with _ | job0
      · simp only [handleEngineEvent, hj]
        exact ⟨j, h⟩
      · cases ev <;> simp only [handleEngineEvent, hj] <;>
          exact mapGet_mapSet_preserves _ _ _ _ _ h
    | sweep now =>
      simp only [sysStep]
      exact ⟨j, h⟩

/-- Witness for `C9_main` at concrete inputs. -/
theorem C9_witness :
    (sysStep ⟨[("j1", ⟨"j1", "processing", some "a.mp4", [], "o.webm", none,
        0, none, 0, none⟩)], [⟨"old.mp4", 0, false⟩], []⟩
      (.sweep (maxAgeMs + 1))).activeJobs =
      [("j1", ⟨"j1", "processing", some "a.mp4", [], "o.webm", none,
        0, none, 0, none⟩)] ∧
    mapGet [("j1", (⟨"j1", "processing", some "a.mp4", [], "o.webm", none,
        0, none, 0, none⟩ : Job))] "j1" = some ⟨"j1", "processing",
        some "a.mp4", [], "o.webm", none, 0, none, 0, none⟩ ∧
    ∃ j', mapGet (sysStep ⟨[("j1", ⟨"j1", "processing", some "a.mp4", [],
        "o.webm", none, 0, none, 0, none⟩)], [⟨"old.mp4", 0, false⟩], []⟩
      (.engineEvent "j1" (.endEv 5))).activeJobs "j1" = some j' := by
  refine ⟨?_, by decide, ?_⟩
  · exact (C9_main ⟨[("j1", ⟨"j1", "processing", some "a.mp4", [],
      "o.webm", none, 0, none, 0, none⟩)], [⟨"old.mp4", 0, false⟩], []⟩).1
      (maxAgeMs + 1)
  · exact (C9_main ⟨[("j1", ⟨"j1", "processing", some "a.mp4", [],
      "o.webm", none, 0, none, 0, none⟩)], [⟨"old.mp4", 0, false⟩], []⟩).2
      (.engineEvent "j1" (.endEv 5)) "j1"
      ⟨"j1", "processing", some "a.mp4", [], "o.webm", none, 0, none, 0, none⟩
      (by decide)

/-- C10, refuted as stated: not every well-formed non-subscribe message is
silently ignored.  The payload `null` is valid JSON — `JSON.parse("null")`
succeeds — yet the handler then throws a `TypeError` reading `data.type` on
it, so the message is neither a parse failure nor a no-op. -/
theorem C10_counterexample :
    onMessage ⟨"c1", none, true⟩ WsRaw.nullPayload =
      .error "TypeError: Cannot read properties of null" ∧
    onMessage ⟨"c1", none, true⟩ WsRaw.nullPayload ≠
      .ok (⟨"c1", none, true⟩ : WsConn) := by
  exact ⟨rfl, by simp [onMessage]⟩

/-- C10, amended: a message that is not valid JSON makes the handler throw
a `SyntaxError` from the unguarded parse rather than being ignored; the
valid-JSON payload `null` also throws — a `TypeError` from the `data.type`
property access — rather than being ignored; only well-formed messages with
type `subscribe` and a truthy `jobId` change the connection's subscription,
and every other well-formed non-null message is silently ignored. -/
theorem C10_main (ws : WsConn) :
    onMessage ws .malformed =
      .error "SyntaxError: Unexpected token in JSON" ∧
    onMessage ws .nullPayload =
      .error "TypeError: Cannot read properties of null" ∧
    (∀ ty jid, ty = some "subscribe" → jid.getD "" ≠ "" →
      onMessage ws (.parsed ty jid) = .ok { ws with jobId := jid }) ∧
    (∀ ty jid, ¬ (ty = some "subscribe" ∧ jid.getD "" ≠ "") →
      onMessage ws (.parsed ty jid) = .ok ws) := by
  refine ⟨rfl, rfl, ?_, ?_⟩
  · intro ty jid h1 h2
    simp [onMessage, h1, h2]
  · intro ty jid h
    simp only [onMessage, if_neg h]

/-- Witness for `C10_main` at concrete inputs. -/
theorem C10_witness :
    onMessage ⟨"c1", none, true⟩ .malformed =
      .error "SyntaxError: Unexpected token in JSON" ∧
    onMessage ⟨"c1", none, true⟩ .nullPayload =
      .error "TypeError: Cannot read properties of null" ∧
    onMessage ⟨"c1", none, true⟩ (.parsed (some "subscribe") (some "j9")) =
      .ok { (⟨"c1", none, true⟩ : WsConn) with jobId := some "j9" } ∧
    onMessage ⟨"c1", none, true⟩ (.parsed (some "ping") none) =
      .ok ⟨"c1", none, true⟩ := by
  refine ⟨(C10_main ⟨"c1", none, true⟩).1, (C10_main ⟨"c1", none, true⟩).2.1,
    ?_, ?_⟩
  · exact (C10_main ⟨"c1", none, true⟩).2.2.1 (some "subscribe") (some "j9")
      rfl (by decide)
  · exact (C10_main ⟨"c1", none, true⟩).2.2.2 (some "ping") none (by decide)
